import Mathlib

/-!
Verification development for the Go YouTube transcript API
(`dogslee/go_youtube_transcript_api`).

The Go sources are shallowly embedded: pure Go functions become Lean
functions; Go `map[string]T` values become association lists (insertion
replaces an existing key, lookup finds the first matching key — keys built
by the embedded constructors are unique, so this agrees with Go maps);
Go `float64` timing arithmetic becomes `ℚ` (the claims under study are
control-flow and order-theoretic, not rounding-mode properties);
Go `(T, error)` results become `Except ApiError T`; a Go panic becomes
`Option.none`.  Network effects are passed in as explicit environments.
-/

namespace YTGo

/-! ## Data model (transcript.go / install.sh lines 262-341) -/

/-- Go struct `TranslationLanguage` (install.sh lines 293-297). -/
structure TranslationLanguage where
  language : String
  languageCode : String
deriving DecidableEq, Repr

/-- Go struct `Transcript` (install.sh lines 299-311).  The `httpClient` pointer is an
external collaborator and is dropped; `translationLanguagesMap` is derived
from `translationLanguages` exactly as `NewTranscript` builds it, so it is
represented by the derived lookup `translationMapLookup` below instead of a
stored field. -/
structure Transcript where
  videoID : String
  title : String
  thumbnailURL : String
  url : String
  language : String
  languageCode : String
  isGenerated : Bool
  translationLanguages : List TranslationLanguage
deriving DecidableEq, Repr

/-- Go struct `TranscriptList` (install.sh lines 425-431); the two Go maps become
association lists. -/
structure TranscriptList where
  videoID : String
  manuallyCreatedTranscripts : List (String × Transcript)
  generatedTranscripts : List (String × Transcript)
  translationLanguages : List TranslationLanguage
deriving DecidableEq, Repr

/-- The `ProxyConfig` implementations (proxies.go): `GenericProxyConfig` and
`WebshareProxyConfig`.  Only the data the fetch pipeline consults is kept. -/
inductive ProxyConfig where
  | generic (httpURL httpsURL : String)
  | webshare (proxyUsername proxyPassword : String) (retriesWhenBlockedCount : Nat)
deriving DecidableEq, Repr

/-- Method `GenericProxyConfig.RetriesWhenBlocked` returns 0;
`WebshareProxyConfig.RetriesWhenBlocked` returns its stored count. -/
def ProxyConfig.retriesWhenBlocked : ProxyConfig → Nat
  | .generic _ _ => 0
  | .webshare _ _ n => n

/-- The error taxonomy of errors.go.  Each Go exception type carries the
video ID; kind-specific payloads are kept where present.  `IpBlocked`
embeds `RequestBlocked` in Go but is a distinct dynamic type, hence a
distinct constructor here (the type assertion in the retry loop
`err.(*RequestBlocked)` matches only `requestBlocked`). -/
inductive ApiError where
  | poTokenRequired (videoID : String)
  | youTubeRequestFailed (videoID : String) (reason : String)
  | ipBlocked (videoID : String)
  | youTubeDataUnparsable (videoID : String)
  | transcriptsDisabled (videoID : String)
  | requestBlocked (videoID : String) (proxyConfig : Option ProxyConfig)
  | ageRestricted (videoID : String)
  | invalidVideoId (videoID : String)
  | videoUnavailable (videoID : String)
  | videoUnplayable (videoID : String) (reason : String) (subReasons : List String)
  | failedToCreateConsentCookie (videoID : String)
  | notTranslatable (videoID : String)
  | translationLanguageNotAvailable (videoID : String)
  | noTranscriptFound (videoID : String) (requestedLanguageCodes : List String)
      (transcriptData : TranscriptList)
deriving DecidableEq, Repr

/-- Method `RequestBlocked.WithProxyConfig` (errors.go): stores the active proxy
configuration on a `RequestBlocked` error; any other error is untouched. -/
def withProxyConfig (e : ApiError) (p : Option ProxyConfig) : ApiError :=
  match e with
  | .requestBlocked vid _ => .requestBlocked vid p
  | _ => e

/-! ## Transcript.Translate (install.sh lines 344-414, claim C2) -/

/-- Go map insertion into an association list: overwrite the existing key,
else append. -/
def assocInsert {β : Type} (m : List (String × β)) (k : String) (v : β) : List (String × β) :=
  if (m.lookup k).isSome then
    m.map (fun p => if p.1 = k then (k, v) else p)
  else
    m ++ [(k, v)]

/-- The map `NewTranscript` builds from the translation-language list
(install.sh lines 325-328): iterate in order, later entries overwrite. -/
def buildTranslationMap (tls : List TranslationLanguage) : List (String × String) :=
  tls.foldl (fun m tl => assocInsert m tl.languageCode tl.language) []

/-- Lookup in the derived `translationLanguagesMap`. -/
def Transcript.translationMapLookup (t : Transcript) (code : String) : Option String :=
  (buildTranslationMap t.translationLanguages).lookup code

/-- Method `Transcript.IsTranslatable` (install.sh lines 344-347). -/
def Transcript.isTranslatable (t : Transcript) : Bool :=
  0 < t.translationLanguages.length

/-- Method `Transcript.Translate` (install.sh lines 389-414). -/
def Transcript.translate (t : Transcript) (languageCode : String) :
    Except ApiError Transcript :=
  if ¬ t.isTranslatable then
    .error (.notTranslatable t.videoID)
  else
    match t.translationMapLookup languageCode with
    | none => .error (.translationLanguageNotAvailable t.videoID)
    | some translatedLanguage =>
        .ok { videoID := t.videoID
              title := t.title
              thumbnailURL := t.thumbnailURL
              url := t.url ++ "&tlang=" ++ languageCode
              language := translatedLanguage
              languageCode := languageCode
              isGenerated := true
              translationLanguages := [] }

/-! ## TranscriptList.FindTranscript (install.sh lines 543-577, claim C1) -/

/-- Inner loop of `findTranscript`: check each transcript dict in order for
the given language code. -/
def lookupInDicts (dicts : List (List (String × Transcript))) (code : String) :
    Option Transcript :=
  match dicts with
  | [] => none
  | d :: ds =>
      match d.lookup code with
      | some t => some t
      | none => lookupInDicts ds code

/-- Outer loop of `findTranscript` (install.sh lines 568-577); `allCodes`
is the full requested list carried into the error. -/
def findTranscriptAux (tl : TranscriptList) (allCodes : List String)
    (codes : List String) (dicts : List (List (String × Transcript))) :
    Except ApiError Transcript :=
  match codes with
  | [] => .error (.noTranscriptFound tl.videoID allCodes tl)
  | c :: cs =>
      match lookupInDicts dicts c with
      | some t => .ok t
      | none => findTranscriptAux tl allCodes cs dicts

/-- Method `TranscriptList.FindTranscript` (install.sh lines 543-550): manual map
first, then generated map. -/
def TranscriptList.findTranscript (tl : TranscriptList) (languageCodes : List String) :
    Except ApiError Transcript :=
  findTranscriptAux tl languageCodes languageCodes
    [tl.manuallyCreatedTranscripts, tl.generatedTranscripts]

/-- Method `TranscriptList.FindManuallyCreatedTranscript` (install.sh lines 552-558). -/
def TranscriptList.findManuallyCreatedTranscript (tl : TranscriptList)
    (languageCodes : List String) : Except ApiError Transcript :=
  findTranscriptAux tl languageCodes languageCodes [tl.manuallyCreatedTranscripts]

/-- Method `TranscriptList.FindGeneratedTranscript` (install.sh lines 560-566). -/
def TranscriptList.findGeneratedTranscript (tl : TranscriptList)
    (languageCodes : List String) : Except ApiError Transcript :=
  findTranscriptAux tl languageCodes languageCodes [tl.generatedTranscripts]

/-! ### Helper lemmas and the C1 development -/

theorem lookupInDicts_pair (d₁ d₂ : List (String × Transcript)) (c : String) :
    lookupInDicts [d₁, d₂] c = (d₁.lookup c).or (d₂.lookup c) := by
  simp only [lookupInDicts]
  cases d₁.lookup c <;> cases d₂.lookup c <;> simp [Option.or]

/-- The double loop of `findTranscript` equals a single
`List.findSome?` pass with per-code fallthrough. -/
theorem findTranscriptAux_eq (tl : TranscriptList) (allCodes codes : List String)
    (dicts : List (List (String × Transcript))) :
    findTranscriptAux tl allCodes codes dicts =
      match codes.findSome? (fun c => lookupInDicts dicts c) with
      | some t => .ok t
      | none => .error (.noTranscriptFound tl.videoID allCodes tl) := by
  induction codes with
  | nil => simp [findTranscriptAux, List.findSome?]
  | cons c cs ih =>
      simp only [findTranscriptAux, List.findSome?_cons]
      cases lookupInDicts dicts c <;> simp [ih]

/-- Sample catalog from the spec (§8): manual `en` track A, generated `en`
track B and `zh` track C. -/
def sampleTrack (code kind : String) (gen : Bool) : Transcript :=
  { videoID := "vid", title := "T", thumbnailURL := "th",
    url := "u-" ++ kind, language := code, languageCode := code,
    isGenerated := gen, translationLanguages := [] }

def exManualEn : Transcript := sampleTrack "en" "manual" false
def exGeneratedEn : Transcript := sampleTrack "en" "gen" true
def exGeneratedZh : Transcript := sampleTrack "zh" "gen-zh" true

def exCatalog : TranscriptList :=
  { videoID := "vid"
    manuallyCreatedTranscripts := [("en", exManualEn)]
    generatedTranscripts := [("en", exGeneratedEn), ("zh", exGeneratedZh)]
    translationLanguages := [] }

/-- C1: `FindTranscript` iterates preference codes in caller order, checks
the manual map before the generated map for each code, returns the first
hit, and otherwise returns a no-transcript-found error carrying the
requested codes and the catalog.  Conjunct 1 characterises the double loop
as a first-hit scan in which, per code, the manual map beats the generated
one; conjunct 2 is the error case; conjuncts 3-4 are the concrete
tie-break examples (manual wins a same-code tie; an earlier preferred code
beats a later one regardless of source type). -/
theorem findTranscript_first_hit_manual_before_generated :
    (∀ (tl : TranscriptList) (codes : List String),
      tl.findTranscript codes =
        match codes.findSome?
            (fun c => (tl.manuallyCreatedTranscripts.lookup c).or
              (tl.generatedTranscripts.lookup c)) with
        | some t => .ok t
        | none => .error (.noTranscriptFound tl.videoID codes tl)) ∧
    (∀ (tl : TranscriptList) (codes : List String),
      (∀ c ∈ codes, tl.manuallyCreatedTranscripts.lookup c = none ∧
          tl.generatedTranscripts.lookup c = none) →
      tl.findTranscript codes = .error (.noTranscriptFound tl.videoID codes tl)) ∧
    exCatalog.findTranscript ["en"] = .ok exManualEn ∧
    exCatalog.findTranscript ["zh", "en"] = .ok exGeneratedZh := by
  have key : ∀ (tl : TranscriptList) (codes : List String),
      tl.findTranscript codes =
        match codes.findSome?
            (fun c => (tl.manuallyCreatedTranscripts.lookup c).or
              (tl.generatedTranscripts.lookup c)) with
        | some t => .ok t
        | none => .error (.noTranscriptFound tl.videoID codes tl) := by
    intro tl codes
    rw [TranscriptList.findTranscript, findTranscriptAux_eq]
    simp only [lookupInDicts_pair]
  refine ⟨key, ?_, ?_, ?_⟩
  · intro tl codes h
    rw [key]
    have : codes.findSome?
        (fun c => (tl.manuallyCreatedTranscripts.lookup c).or
          (tl.generatedTranscripts.lookup c)) = none := by
      induction codes with
      | nil => simp
      | cons c cs ih =>
          have hc := h c (by simp)
          simp only [List.findSome?_cons, hc.1, hc.2, Option.or]
          exact ih (fun x hx => h x (by simp [hx]))
    simp [this]
  · rfl
  · rfl

/-- C1 witness: the no-hit hypothesis discharged on a concrete catalog. -/
theorem findTranscript_first_hit_manual_before_generated_witness :
    exCatalog.findTranscript ["fr"] =
      .error (.noTranscriptFound "vid" ["fr"] exCatalog) :=
  findTranscript_first_hit_manual_before_generated.2.1 exCatalog ["fr"]
    (by decide)

/-! ### Claim C2: Transcript.Translate -/

/-- C2: `Translate` fails with not-translatable exactly when the
translation list is empty; fails with
translation-language-not-available when the target code is absent from
the (derived) translation map; otherwise returns a new handle with
`&tlang=<code>` appended to the URL, display language from the map,
languageCode = target, isGenerated forced true and an empty translation
list.  (The embedding is pure, so the original handle is never mutated by
construction.) -/
theorem translate_spec :
    ∀ (t : Transcript) (code : String),
      (t.translationLanguages = [] →
        t.translate code = .error (.notTranslatable t.videoID)) ∧
      (t.translationLanguages ≠ [] → t.translationMapLookup code = none →
        t.translate code = .error (.translationLanguageNotAvailable t.videoID)) ∧
      (∀ lang, t.translationLanguages ≠ [] →
        t.translationMapLookup code = some lang →
        t.translate code = .ok
          { videoID := t.videoID, title := t.title,
            thumbnailURL := t.thumbnailURL,
            url := t.url ++ "&tlang=" ++ code,
            language := lang, languageCode := code,
            isGenerated := true, translationLanguages := [] }) := by
  intro t code
  refine ⟨?_, ?_, ?_⟩
  · intro h
    simp [Transcript.translate, Transcript.isTranslatable, h]
  · intro h hl
    have hlen : 0 < t.translationLanguages.length := by
      cases hts : t.translationLanguages with
      | nil => exact absurd hts h
      | cons a l => simp [hts]
    simp [Transcript.translate, Transcript.isTranslatable, hlen, hl]
  · intro lang h hl
    have hlen : 0 < t.translationLanguages.length := by
      cases hts : t.translationLanguages with
      | nil => exact absurd hts h
      | cons a l => simp [hts]
    simp [Transcript.translate, Transcript.isTranslatable, hlen, hl]

/-- Handle used by the Translate examples of spec section 8: a manual `en` track that
can be translated to Spanish. -/
def exTranslatable : Transcript :=
  { videoID := "vid", title := "T", thumbnailURL := "th", url := "base",
    language := "English", languageCode := "en", isGenerated := false,
    translationLanguages := [⟨"Spanish", "es"⟩] }

/-- C2 witness: all three branches exercised on concrete handles
(spec §8 examples). -/
theorem translate_spec_witness :
    (sampleTrack "en" "manual" false).translate "es" =
        .error (.notTranslatable "vid") ∧
    exTranslatable.translate "fr" =
        .error (.translationLanguageNotAvailable "vid") ∧
    exTranslatable.translate "es" = .ok
      { videoID := "vid", title := "T", thumbnailURL := "th",
        url := "base&tlang=es", language := "Spanish", languageCode := "es",
        isGenerated := true, translationLanguages := [] } := by
  refine ⟨?_, ?_, ?_⟩
  · exact (translate_spec (sampleTrack "en" "manual" false) "es").1 rfl
  · exact (translate_spec exTranslatable "fr").2.1 (by decide) (by decide)
  · exact (translate_spec exTranslatable "es").2.2 "Spanish" (by decide) (by decide)

/-! ## Snippets and the timestamped formatters (formatters.go, claims C3, C4) -/

/-- Go struct `FetchedTranscriptSnippet` (install.sh lines 262-267); `float64`
seconds become `ℚ`. -/
structure FetchedTranscriptSnippet where
  text : String
  start : ℚ
  duration : ℚ
deriving DecidableEq, Repr

/-- Go struct `FetchedTranscript` (install.sh lines 269-278). -/
structure FetchedTranscript where
  title : String
  thumbnailURL : String
  snippets : List FetchedTranscriptSnippet
  videoID : String
  language : String
  languageCode : String
  isGenerated : Bool
deriving DecidableEq, Repr

/-- The per-snippet display interval computed by
`TextBasedFormatter.formatTranscript` (formatters.go lines 101-124):
`end = start + duration`, clamped to the start of the next snippet when that
start is earlier — looking exactly one snippet ahead. -/
def timedIntervals : List FetchedTranscriptSnippet → List (ℚ × ℚ)
  | [] => []
  | [s] => [(s.start, s.start + s.duration)]
  | s :: s2 :: rest =>
      (s.start,
        if s2.start < s.start + s.duration then s2.start
        else s.start + s.duration) :: timedIntervals (s2 :: rest)

theorem timedIntervals_length (l : List FetchedTranscriptSnippet) :
    (timedIntervals l).length = l.length := by
  induction l with
  | nil => rfl
  | cons s rest ih =>
      cases rest with
      | nil => rfl
      | cons s2 r2 => simp only [timedIntervals, List.length_cons] at ih ⊢; omega

theorem timedIntervals_get (l : List FetchedTranscriptSnippet) (i : ℕ)
    (hi : i < l.length) (hi' : i < (timedIntervals l).length) :
    (timedIntervals l).get ⟨i, hi'⟩ =
      ((l.get ⟨i, hi⟩).start,
        if h : i + 1 < l.length then
          (if (l.get ⟨i + 1, h⟩).start <
                (l.get ⟨i, hi⟩).start + (l.get ⟨i, hi⟩).duration then
            (l.get ⟨i + 1, h⟩).start
          else (l.get ⟨i, hi⟩).start + (l.get ⟨i, hi⟩).duration)
        else (l.get ⟨i, hi⟩).start + (l.get ⟨i, hi⟩).duration) := by
  induction l generalizing i with
  | nil => exact absurd hi (by simp)
  | cons s rest ih =>
      cases rest with
      | nil =>
          cases i with
          | zero => simp [timedIntervals]
          | succ j =>
              have : j + 1 < 1 := by simp at hi
              omega
      | cons s2 r2 =>
          cases i with
          | zero => simp [timedIntervals]
          | succ j =>
              have hj : j < (s2 :: r2).length := by simpa using hi
              have hj' : j < (timedIntervals (s2 :: r2)).length := by
                rw [timedIntervals_length]; exact hj
              have := ih (i := j) hj hj'
              simp only [timedIntervals, List.get_cons_succ]
              rw [this]
              by_cases hsucc : j + 1 < (s2 :: r2).length
              · have hsucc' : j + 1 + 1 < (s :: s2 :: r2).length := by
                  simpa using Nat.succ_lt_succ hsucc
                simp [dif_pos hsucc, dif_pos hsucc']
              · have hsucc' : ¬ (j + 1 + 1 < (s :: s2 :: r2).length) := by
                  simpa using fun h => hsucc (Nat.lt_of_succ_lt_succ h)
                simp [dif_neg hsucc, dif_neg hsucc']

/-- C3: the timestamped (SRT/WebVTT) formatter computes
`end[i] = start[i] + duration[i]`, except that when `i` is not last and
`start[i+1] < end[i]` the end is clamped to `start[i+1]` (one-snippet
lookahead only); consequently the emitted `end[i]` never exceeds
`start[i+1]`. -/
theorem timedIntervals_clamp_one_ahead :
    ∀ (l : List FetchedTranscriptSnippet),
      (timedIntervals l).length = l.length ∧
      (∀ i (hi : i < l.length) (hi' : i < (timedIntervals l).length),
        ((timedIntervals l).get ⟨i, hi'⟩).2 =
          (if h : i + 1 < l.length then
            (if (l.get ⟨i + 1, h⟩).start <
                  (l.get ⟨i, hi⟩).start + (l.get ⟨i, hi⟩).duration then
              (l.get ⟨i + 1, h⟩).start
            else (l.get ⟨i, hi⟩).start + (l.get ⟨i, hi⟩).duration)
          else (l.get ⟨i, hi⟩).start + (l.get ⟨i, hi⟩).duration)) ∧
      (∀ i (hi' : i < (timedIntervals l).length) (h : i + 1 < l.length),
        ((timedIntervals l).get ⟨i, hi'⟩).2 ≤ (l.get ⟨i + 1, h⟩).start) := by
  intro l
  have hlen := timedIntervals_length l
  refine ⟨hlen, ?_, ?_⟩
  · intro i hi hi'
    rw [timedIntervals_get l i hi hi']
  · intro i hi' h
    have hi : i < l.length := Nat.lt_of_succ_lt h
    rw [timedIntervals_get l i hi hi']
    simp only [dif_pos h]
    split
    · exact le_refl _
    · next hnot => exact le_of_not_lt hnot

/-- C3 witness: two overlapping snippets; the first end is clamped to the
second start and does not exceed it. -/
theorem timedIntervals_clamp_one_ahead_witness :
    ((timedIntervals [⟨"a", 0, 5⟩, ⟨"b", 3, 1⟩]).get ⟨0, by decide⟩).2 =
        (3 : ℚ) ∧
    ((timedIntervals [⟨"a", 0, 5⟩, ⟨"b", 3, 1⟩]).get ⟨0, by decide⟩).2 ≤
        (3 : ℚ) := by
  have h := timedIntervals_clamp_one_ahead [⟨"a", 0, 5⟩, ⟨"b", 3, 1⟩]
  constructor
  · have := h.2.1 0 (by decide) (by decide)
    rw [this]; norm_num
  · have := h.2.2 0 (by decide) (by decide)
    simpa using this

/-! ### Claim C4: seconds → H:M:S.ms conversion -/

/-- The Go `int(x)` conversion on a `float64`: truncation toward zero. -/
def goTruncInt (q : ℚ) : ℤ :=
  if q < 0 then -(q.num.natAbs / q.den : ℕ) else q.num / q.den

theorem goTruncInt_of_nonneg (q : ℚ) (hq : 0 ≤ q) : goTruncInt q = ⌊q⌋ := by
  rw [goTruncInt, if_neg (not_lt.mpr hq), Rat.floor_def]

/-- Method `TextBasedFormatter.secondsToTimestamp` (formatters.go lines 91-99). -/
def secondsToTimestamp (time : ℚ) : ℤ × ℤ × ℤ × ℤ :=
  let hours := goTruncInt (time / 3600)
  let r1 := time - (hours : ℚ) * 3600
  let mins := goTruncInt (r1 / 60)
  let r2 := r1 - (mins : ℚ) * 60
  let secs := goTruncInt r2
  let ms := goTruncInt ((r2 - (secs : ℚ)) * 1000)
  (hours, mins, secs, ms)

/-- Closed-form evaluation of `secondsToTimestamp` on nonnegative input:
every component is floor/truncation based. -/
theorem secondsToTimestamp_eval (s : ℚ) (hs : 0 ≤ s) :
    secondsToTimestamp s =
      (⌊s / 3600⌋, ⌊s / 60⌋ - 60 * ⌊s / 3600⌋,
        ⌊s⌋ - 60 * ⌊s / 60⌋, ⌊1000 * s⌋ - 1000 * ⌊s⌋) := by
  have h3600 : (0 : ℚ) < 3600 := by norm_num
  have h60 : (0 : ℚ) < 60 := by norm_num
  have hHle : (⌊s / 3600⌋ : ℚ) * 3600 ≤ s := by
    have h := mul_le_mul_of_nonneg_right (Int.floor_le (s / 3600)) h3600.le
    rwa [div_mul_cancel₀ _ (ne_of_gt h3600)] at h
  have hMle : (⌊s / 60⌋ : ℚ) * 60 ≤ s := by
    have h := mul_le_mul_of_nonneg_right (Int.floor_le (s / 60)) h60.le
    rwa [div_mul_cancel₀ _ (ne_of_gt h60)] at h
  have hSle : ((⌊s⌋ : ℤ) : ℚ) ≤ s := Int.floor_le s
  simp only [secondsToTimestamp]
  rw [goTruncInt_of_nonneg (s / 3600) (div_nonneg hs h3600.le)]
  have e1 : (s - (⌊s / 3600⌋ : ℚ) * 3600) / 60 =
      s / 60 - ((60 * ⌊s / 3600⌋ : ℤ) : ℚ) := by push_cast; ring
  rw [e1]
  have n1 : (0 : ℚ) ≤ s / 60 - ((60 * ⌊s / 3600⌋ : ℤ) : ℚ) := by
    push_cast
    rw [sub_nonneg, le_div_iff₀ h60]
    push_cast at hHle
    linarith
  rw [goTruncInt_of_nonneg _ n1, Int.floor_sub_int]
  have e2 : s - (⌊s / 3600⌋ : ℚ) * 3600 -
      ((⌊s / 60⌋ - 60 * ⌊s / 3600⌋ : ℤ) : ℚ) * 60 =
      s - ((60 * ⌊s / 60⌋ : ℤ) : ℚ) := by push_cast; ring
  rw [e2]
  have n2 : (0 : ℚ) ≤ s - ((60 * ⌊s / 60⌋ : ℤ) : ℚ) := by
    push_cast
    push_cast at hMle
    linarith
  rw [goTruncInt_of_nonneg _ n2, Int.floor_sub_int]
  have e3 : (s - ((60 * ⌊s / 60⌋ : ℤ) : ℚ) -
      ((⌊s⌋ - 60 * ⌊s / 60⌋ : ℤ) : ℚ)) * 1000 =
      1000 * s - ((1000 * ⌊s⌋ : ℤ) : ℚ) := by push_cast; ring
  rw [e3]
  have n3 : (0 : ℚ) ≤ 1000 * s - ((1000 * ⌊s⌋ : ℤ) : ℚ) := by
    push_cast
    push_cast at hSle
    linarith
  rw [goTruncInt_of_nonneg _ n3, Int.floor_sub_int]

/-- C4 counterexample: the claim computes milliseconds by *rounding*
the sub-second remainder times 1000; the code *truncates* it.  At
`s = 1/2000` seconds the remainder after hours/minutes/seconds is
`1/2000`, the claimed value is `round ((1/2000) * 1000) = round (1/2) = 1`,
but the code produces `0`. -/
theorem secondsToTimestamp_not_round :
    secondsToTimestamp (1 / 2000) = (0, 0, 0, 0) ∧
    round (((1 : ℚ) / 2000) * 1000) = 1 ∧
    ¬ (secondsToTimestamp (1 / 2000)).2.2.2 =
        round (((1 : ℚ) / 2000) * 1000) := by
  have h1 : secondsToTimestamp ((1 : ℚ) / 2000) = (0, 0, 0, 0) := by
    rw [secondsToTimestamp_eval ((1 : ℚ) / 2000) (by norm_num)]
    norm_num [Rat.floor_def]
  have h2 : round (((1 : ℚ) / 2000) * 1000) = 1 := by
    norm_num [round_eq, Rat.floor_def]
  refine ⟨h1, h2, ?_⟩
  rw [h1, h2]
  decide

/-- C4 (amended): for nonnegative `s` the conversion is fully
truncation-based with no carry correction: hours `= ⌊s/3600⌋`, minutes
`= ⌊s/60⌋ - 60⌊s/3600⌋` (the floor of the post-hour remainder over 60),
seconds `= ⌊s⌋ - 60⌊s/60⌋` (the floor of the post-minute remainder), and
milliseconds `= ⌊1000s⌋ - 1000⌊s⌋` — the *floor* (not the round) of the
sub-second remainder times 1000. -/
theorem secondsToTimestamp_floor_closed_form (s : ℚ) (hs : 0 ≤ s) :
    secondsToTimestamp s =
      (⌊s / 3600⌋, ⌊s / 60⌋ - 60 * ⌊s / 3600⌋,
        ⌊s⌋ - 60 * ⌊s / 60⌋, ⌊1000 * s⌋ - 1000 * ⌊s⌋) :=
  secondsToTimestamp_eval s hs

/-- C4 witness: the amended closed form evaluated at `s = 3661.75`
(1 hour, 1 minute, 1 second, 750 ms). -/
theorem secondsToTimestamp_floor_closed_form_witness :
    secondsToTimestamp (14647 / 4) = (1, 1, 1, 750) := by
  rw [secondsToTimestamp_floor_closed_form (14647 / 4) (by norm_num)]
  norm_num [Rat.floor_def]

/-! ## JSON model

The player endpoint returns JSON decoded into `map[string]interface{}`
values.  `Json` models decoded Go JSON values; an object is an
association list (Go map keys are unique).  The `as*` helpers model Go
type assertions `v.(T)`. -/

inductive Json where
  | null
  | bool (b : Bool)
  | num (q : ℚ)
  | str (s : String)
  | arr (elems : List Json)
  | obj (fields : List (String × Json))

/-- A decoded JSON object (`map[string]interface{}`). -/
abbrev JsonObj := List (String × Json)

def Json.asObj : Json → Option JsonObj
  | .obj fields => some fields
  | _ => none

def Json.asStr : Json → Option String
  | .str s => some s
  | _ => none

def Json.asArr : Json → Option (List Json)
  | .arr elems => some elems
  | _ => none

def Json.asBool : Json → Option Bool
  | .bool b => some b
  | _ => none

/-- Access `o[k]` on a Go map: present-or-absent field access. -/
def getField (o : JsonObj) (k : String) : Option Json :=
  o.lookup k

/-- Assertion `o[k].(map[string]interface\x7b\x7d)`. -/
def getObj (o : JsonObj) (k : String) : Option JsonObj :=
  (getField o k).bind Json.asObj

/-- Assertion `o[k].(string)`. -/
def getStr (o : JsonObj) (k : String) : Option String :=
  (getField o k).bind Json.asStr

/-- Assertion `o[k].([]interface\x7b\x7d)`. -/
def getArr (o : JsonObj) (k : String) : Option (List Json) :=
  (getField o k).bind Json.asArr

/-- Assertion `o[k].(bool)`. -/
def getBool (o : JsonObj) (k : String) : Option Bool :=
  (getField o k).bind Json.asBool

/-! ## Structured (JSON) formatter (claim C9) -/

/-- Method `FetchedTranscript.ToRawData` (install.sh lines 280-291): one object
per snippet with exactly the keys text/start/duration, in snippet order. -/
def toRawData (ft : FetchedTranscript) : List JsonObj :=
  ft.snippets.map (fun snippet =>
    [("text", Json.str snippet.text),
     ("start", Json.num snippet.start),
     ("duration", Json.num snippet.duration)])

/-- Method `JSONFormatter.FormatTranscript` (formatters.go lines 18-25) at the
JSON-value level: serialize `ToRawData` as an array of objects.  (The
byte-level rendering is the Go `encoding/json` library, an external collaborator.) -/
def jsonFormatTranscript (ft : FetchedTranscript) : Json :=
  .arr ((toRawData ft).map Json.obj)

/-- Method `JSONFormatter.FormatTranscripts` (formatters.go lines 27-37): an
array of per-transcript arrays, order preserved. -/
def jsonFormatTranscripts (fts : List FetchedTranscript) : Json :=
  .arr (fts.map jsonFormatTranscript)

def getNum (o : JsonObj) (k : String) : Option ℚ :=
  (getField o k).bind (fun j => match j with | .num q => some q | _ => none)

/-- Decoder for one serialized snippet object. -/
def snippetOfRaw (o : JsonObj) : Option FetchedTranscriptSnippet :=
  match getStr o "text", getNum o "start", getNum o "duration" with
  | some t, some s, some d => some ⟨t, s, d⟩
  | _, _, _ => none

/-- Decoder for a serialized transcript: an array of snippet objects. -/
def decodeSnippets : Json → Option (List FetchedTranscriptSnippet)
  | .arr elems => elems.mapM (fun j => j.asObj.bind snippetOfRaw)
  | _ => none

/-- Decoding the serialized snippet objects recovers the snippets. -/
theorem decodeSnippets_aux (l : List FetchedTranscriptSnippet) :
    List.mapM (fun j => j.asObj.bind snippetOfRaw)
      ((l.map (fun snippet =>
        [("text", Json.str snippet.text),
         ("start", Json.num snippet.start),
         ("duration", Json.num snippet.duration)])).map Json.obj) = some l := by
  induction l with
  | nil => rfl
  | cons sn rest ih =>
      simp only [List.map_cons, List.mapM_cons]
      rw [show ((Json.obj [("text", Json.str sn.text),
            ("start", Json.num sn.start),
            ("duration", Json.num sn.duration)]).asObj.bind snippetOfRaw) =
          some sn from rfl, ih]
      rfl

/-- C9: the structured formatter serializes each snippet as an object with
exactly the keys text, start and duration, preserves snippet order, and
decoding the serialized output yields a sequence of the same length whose
text/start/duration match the input snippets at every index (round trip). -/
theorem jsonFormatter_round_trip :
    ∀ ft : FetchedTranscript,
      (toRawData ft).length = ft.snippets.length ∧
      (∀ o ∈ toRawData ft, o.map Prod.fst = ["text", "start", "duration"]) ∧
      (toRawData ft).map snippetOfRaw = ft.snippets.map some ∧
      decodeSnippets (jsonFormatTranscript ft) = some ft.snippets := by
  intro ft
  refine ⟨by simp [toRawData], ?_, ?_, ?_⟩
  · intro o ho
    simp only [toRawData, List.mem_map] at ho
    obtain ⟨sn, -, rfl⟩ := ho
    rfl
  · simp only [toRawData, List.map_map]
    apply List.map_congr_left
    intro sn _
    rfl
  · simp only [jsonFormatTranscript, toRawData, decodeSnippets]
    exact decodeSnippets_aux ft.snippets

/-- C9 witness: the exact-keys conjunct discharged on a concrete
transcript. -/
theorem jsonFormatter_round_trip_witness :
    ([("text", Json.str "a"), ("start", Json.num 1),
      ("duration", Json.num 2)] : JsonObj).map Prod.fst =
      ["text", "start", "duration"] :=
  (jsonFormatter_round_trip
      ⟨"T", "th", [⟨"a", 1, 2⟩], "v", "English", "en", false⟩).2.1
    [("text", Json.str "a"), ("start", Json.num 1), ("duration", Json.num 2)]
    (by simp [toRawData])

/-! ## Playability classification (install.sh lines 615-631, 738-786) -/

def playabilityStatusOK : String := "OK"
def playabilityStatusError : String := "ERROR"
def playabilityStatusLoginRequired : String := "LOGIN_REQUIRED"

def playabilityFailedReasonBotDetected : String :=
  "Sign in to confirm you\x27re not a bot"
def playabilityFailedReasonAgeRestricted : String :=
  "This video may be inappropriate for some users."
def playabilityFailedReasonVideoUnavailable : String :=
  "This video is unavailable"

/-- Sub-reason extraction inside `assertPlayability` (install.sh lines
767-783): a best-effort walk of
`errorScreen → playerErrorMessageRenderer → subreason → runs[*].text`;
any missing or malformed level yields the empty list. -/
def extractSubReasons (playabilityStatusData : JsonObj) : List String :=
  match getObj playabilityStatusData "errorScreen" with
  | none => []
  | some errorScreen =>
      match getObj errorScreen "playerErrorMessageRenderer" with
      | none => []
      | some playerError =>
          match getObj playerError "subreason" with
          | none => []
          | some subreason =>
              match getArr subreason "runs" with
              | none => []
              | some runs =>
                  runs.filterMap (fun run =>
                    run.asObj.bind (fun runMap => getStr runMap "text"))

/-- Method `TranscriptListFetcher.assertPlayability` (install.sh lines 738-786).
`none` means the video is playable. -/
def assertPlayability (innertubeData : JsonObj) (videoID : String) :
    Option ApiError :=
  match getObj innertubeData "playabilityStatus" with
  | none => none
  | some playabilityStatusData =>
      match getStr playabilityStatusData "status" with
      | none => none
      | some status =>
          if status = playabilityStatusOK then none
          else
            let reason := (getStr playabilityStatusData "reason").getD ""
            if status = playabilityStatusLoginRequired ∧
                reason = playabilityFailedReasonBotDetected then
              some (.requestBlocked videoID none)
            else if status = playabilityStatusLoginRequired ∧
                reason = playabilityFailedReasonAgeRestricted then
              some (.ageRestricted videoID)
            else if status = playabilityStatusError ∧
                reason = playabilityFailedReasonVideoUnavailable then
              (if videoID.startsWith "http://" ∨ videoID.startsWith "https://" then
                some (.invalidVideoId videoID)
              else
                some (.videoUnavailable videoID))
            else
              some (.videoUnplayable videoID reason
                (extractSubReasons playabilityStatusData))

/-- Method `TranscriptListFetcher.extractVideoDetailsAndCaptionsJSON`
(install.sh lines 708-736). -/
def extractVideoDetailsAndCaptionsJSON (innertubeData : JsonObj)
    (videoID : String) : Except ApiError (JsonObj × JsonObj) :=
  match assertPlayability innertubeData videoID with
  | some e => .error e
  | none =>
      match getObj innertubeData "videoDetails" with
      | none => .error (.youTubeDataUnparsable videoID)
      | some videoDetailsJSON =>
          match getObj innertubeData "captions" with
          | none => .error (.transcriptsDisabled videoID)
          | some captions =>
              match getObj captions "playerCaptionsTracklistRenderer" with
              | none => .error (.transcriptsDisabled videoID)
              | some captionsJSON =>
                  if (getField captionsJSON "captionTracks").isSome then
                    .ok (videoDetailsJSON, captionsJSON)
                  else
                    .error (.transcriptsDisabled videoID)

/-! ## Catalog building (install.sh lines 448-541, claim C10) -/

/-- Modelled from the spec: the constant `ThumbnailURLTemplate` used by
`BuildTranscriptList` is not among the provided sources; §3 and §4.5 only
say the thumbnail URL is derived once per catalog from the video ID, so
the template application is modelled as an abstract injective function of
the video ID. -/
def thumbnailURLFromTemplate (videoID : String) : String :=
  "thumbnail-url-for:" ++ videoID

/-- Parsing of `captionsJSON["translationLanguages"]` (install.sh lines
450-471): append an entry only when every nested cast succeeds. -/
def parseTranslationLanguages (captionsJSON : JsonObj) : List TranslationLanguage :=
  match getArr captionsJSON "translationLanguages" with
  | none => []
  | some translationLangs =>
      translationLangs.filterMap (fun tl =>
        tl.asObj.bind (fun tlMap =>
          (getObj tlMap "languageName").bind (fun langName =>
            (getArr langName "runs").bind (fun runs =>
              match runs with
              | [] => none
              | run :: _ =>
                  run.asObj.bind (fun runMap =>
                    (getStr runMap "text").bind (fun text =>
                      (getStr tlMap "languageCode").map (fun langCode =>
                        ⟨text, langCode⟩)))))))

/-- Extraction of the display name of a caption track (install.sh lines
496-504): empty string when any nested cast fails. -/
def trackLanguageName (captionMap : JsonObj) : String :=
  match getObj captionMap "name" with
  | none => ""
  | some name =>
      match getArr name "runs" with
      | none => ""
      | some [] => ""
      | some (run :: _) =>
          match run.asObj with
          | none => ""
          | some runMap => (getStr runMap "text").getD ""

/-- The caption-track loop of `BuildTranscriptList` (install.sh lines
477-533).  `titleOpt` is `videoDetailsJSON["title"].(string)`; the Go
code performs this type assertion *unchecked* when constructing each
accepted track, so `titleOpt = none` at an accepted track is a panic,
modelled as `Option.none`. -/
def processCaptionTracks (videoID : String) (titleOpt : Option String)
    (thumbnailURL : String) (translationLanguages : List TranslationLanguage) :
    List Json → List (String × Transcript) × List (String × Transcript) →
    Option (List (String × Transcript) × List (String × Transcript))
  | [], acc => some acc
  | caption :: rest, acc =>
      match caption.asObj with
      | none =>
          processCaptionTracks videoID titleOpt thumbnailURL
            translationLanguages rest acc
      | some captionMap =>
          let isGenerated := (getStr captionMap "kind").getD "" = "asr"
          match getStr captionMap "languageCode" with
          | none =>
              processCaptionTracks videoID titleOpt thumbnailURL
                translationLanguages rest acc
          | some languageCode =>
              match getStr captionMap "baseUrl" with
              | none =>
                  processCaptionTracks videoID titleOpt thumbnailURL
                    translationLanguages rest acc
              | some rawBaseURL =>
                  let baseURL := rawBaseURL.replace "&fmt=srv3" ""
                  let translationLangs :=
                    if (getBool captionMap "isTranslatable").getD false then
                      translationLanguages
                    else []
                  match titleOpt with
                  | none => none
                  | some title =>
                      let t : Transcript :=
                        { videoID := videoID, title := title,
                          thumbnailURL := thumbnailURL, url := baseURL,
                          language := trackLanguageName captionMap,
                          languageCode := languageCode,
                          isGenerated := isGenerated,
                          translationLanguages := translationLangs }
                      if isGenerated then
                        processCaptionTracks videoID titleOpt thumbnailURL
                          translationLanguages rest
                          (acc.1, assocInsert acc.2 languageCode t)
                      else
                        processCaptionTracks videoID titleOpt thumbnailURL
                          translationLanguages rest
                          (assocInsert acc.1 languageCode t, acc.2)

/-- Function `BuildTranscriptList` (install.sh lines 448-541).  The error
result of the Go function is always `nil`; its only abnormal exit is the title-assertion
panic, modelled as `none`. -/
def buildTranscriptList (videoID : String)
    (videoDetailsJSON captionsJSON : JsonObj) : Option TranscriptList :=
  let translationLanguages := parseTranslationLanguages captionsJSON
  let tracks := (getArr captionsJSON "captionTracks").getD []
  match processCaptionTracks videoID (getStr videoDetailsJSON "title")
      (thumbnailURLFromTemplate videoID) translationLanguages tracks ([], []) with
  | none => none
  | some (man, gen) => some ⟨videoID, man, gen, translationLanguages⟩

/-! ### Claim C6: the playability classifier -/

theorem assertPlayability_never_unparsable (d : JsonObj) (vid : String) :
    assertPlayability d vid ≠ some (.youTubeDataUnparsable vid) := by
  intro h
  cases h1 : getObj d "playabilityStatus" with
  | none =>
      simp only [assertPlayability, h1] at h
      exact Option.noConfusion h
  | some psd =>
      cases h2 : getStr psd "status" with
      | none =>
          simp only [assertPlayability, h1, h2] at h
          exact Option.noConfusion h
      | some status =>
          by_cases hok : status = playabilityStatusOK
          · simp only [assertPlayability, h1, h2, if_pos hok] at h
            exact Option.noConfusion h
          · by_cases hb : status = playabilityStatusLoginRequired ∧
                (getStr psd "reason").getD "" = playabilityFailedReasonBotDetected
            · simp only [assertPlayability, h1, h2, if_neg hok, if_pos hb] at h
              simp at h
            · by_cases ha : status = playabilityStatusLoginRequired ∧
                  (getStr psd "reason").getD "" = playabilityFailedReasonAgeRestricted
              · simp only [assertPlayability, h1, h2, if_neg hok, if_neg hb,
                  if_pos ha] at h
                simp at h
              · by_cases he : status = playabilityStatusError ∧
                    (getStr psd "reason").getD "" =
                      playabilityFailedReasonVideoUnavailable
                · by_cases hu : (vid.startsWith "http://" ∨
                      vid.startsWith "https://")
                  · simp only [assertPlayability, h1, h2, if_neg hok, if_neg hb,
                      if_neg ha, if_pos he, if_pos hu] at h
                    simp at h
                  · simp only [assertPlayability, h1, h2, if_neg hok, if_neg hb,
                      if_neg ha, if_pos he, if_neg hu] at h
                    simp at h
                · simp only [assertPlayability, h1, h2, if_neg hok, if_neg hb,
                    if_neg ha, if_neg he] at h
                  simp at h

/-- C6: the classifier returns playable (`none`) when the
playabilityStatus field is absent or its status is OK; blocked on
LOGIN_REQUIRED with the bot-detection reason; age-restricted on
LOGIN_REQUIRED with the age-restriction reason; generic unplayable for any
other LOGIN_REQUIRED reason; on ERROR with the video-unavailable reason,
invalid-video-id when the video ID looks like a URL and video-unavailable
otherwise; and for any other non-OK status, unplayable carrying the reason
text and the best-effort sub-reason list, whose extraction yields `[]` on
any missing nested level and never an error. -/
theorem assertPlayability_classification :
    ∀ (d : JsonObj) (vid : String),
      (getObj d "playabilityStatus" = none → assertPlayability d vid = none) ∧
      (∀ psd, getObj d "playabilityStatus" = some psd →
        (getStr psd "status" = none → assertPlayability d vid = none) ∧
        (getStr psd "status" = some "OK" → assertPlayability d vid = none) ∧
        (∀ status, getStr psd "status" = some status → status ≠ "OK" →
          ((status = "LOGIN_REQUIRED" →
              (getStr psd "reason").getD "" = playabilityFailedReasonBotDetected →
              assertPlayability d vid = some (.requestBlocked vid none)) ∧
           (status = "LOGIN_REQUIRED" →
              (getStr psd "reason").getD "" = playabilityFailedReasonAgeRestricted →
              assertPlayability d vid = some (.ageRestricted vid)) ∧
           (status = "LOGIN_REQUIRED" →
              (getStr psd "reason").getD "" ≠ playabilityFailedReasonBotDetected →
              (getStr psd "reason").getD "" ≠ playabilityFailedReasonAgeRestricted →
              assertPlayability d vid = some (.videoUnplayable vid
                ((getStr psd "reason").getD "") (extractSubReasons psd))) ∧
           (status = "ERROR" →
              (getStr psd "reason").getD "" = playabilityFailedReasonVideoUnavailable →
              (vid.startsWith "http://" ∨ vid.startsWith "https://") →
              assertPlayability d vid = some (.invalidVideoId vid)) ∧
           (status = "ERROR" →
              (getStr psd "reason").getD "" = playabilityFailedReasonVideoUnavailable →
              ¬ (vid.startsWith "http://" ∨ vid.startsWith "https://") →
              assertPlayability d vid = some (.videoUnavailable vid)) ∧
           (¬ (status = "LOGIN_REQUIRED" ∧
                ((getStr psd "reason").getD "" = playabilityFailedReasonBotDetected ∨
                 (getStr psd "reason").getD "" = playabilityFailedReasonAgeRestricted)) →
            ¬ (status = "ERROR" ∧
                (getStr psd "reason").getD "" = playabilityFailedReasonVideoUnavailable) →
              assertPlayability d vid = some (.videoUnplayable vid
                ((getStr psd "reason").getD "") (extractSubReasons psd)))))) ∧
      (∀ psd : JsonObj, getObj psd "errorScreen" = none →
        extractSubReasons psd = []) := by
  intro d vid
  refine ⟨?_, ?_, ?_⟩
  · intro h1
    simp [assertPlayability, h1]
  · intro psd h1
    refine ⟨?_, ?_, ?_⟩
    · intro h2
      simp [assertPlayability, h1, h2]
    · intro h2
      simp [assertPlayability, h1, h2, playabilityStatusOK]
    · intro status h2 hne
      have hok : ¬ (status = playabilityStatusOK) := hne
      refine ⟨?_, ?_, ?_, ?_, ?_, ?_⟩
      · intro hst hr
        simp only [assertPlayability, h1, h2, if_neg hok]
        rw [if_pos ⟨hst, hr⟩]
      · intro hst hr
        have hbot : ¬ (status = playabilityStatusLoginRequired ∧
            (getStr psd "reason").getD "" = playabilityFailedReasonBotDetected) := by
          rintro ⟨-, hb⟩
          rw [hr] at hb
          exact absurd hb (by decide)
        simp only [assertPlayability, h1, h2, if_neg hok, if_neg hbot]
        rw [if_pos ⟨hst, hr⟩]
      · intro hst hr1 hr2
        have hbot : ¬ (status = playabilityStatusLoginRequired ∧
            (getStr psd "reason").getD "" = playabilityFailedReasonBotDetected) :=
          fun h => hr1 h.2
        have hage : ¬ (status = playabilityStatusLoginRequired ∧
            (getStr psd "reason").getD "" = playabilityFailedReasonAgeRestricted) :=
          fun h => hr2 h.2
        have herr : ¬ (status = playabilityStatusError ∧
            (getStr psd "reason").getD "" =
              playabilityFailedReasonVideoUnavailable) := by
          rintro ⟨he, -⟩
          rw [hst] at he
          exact absurd he (by decide)
        simp only [assertPlayability, h1, h2, if_neg hok, if_neg hbot,
          if_neg hage, if_neg herr]
      · intro hst hr hurl
        have hbot : ¬ (status = playabilityStatusLoginRequired ∧
            (getStr psd "reason").getD "" = playabilityFailedReasonBotDetected) := by
          rintro ⟨hl, -⟩
          rw [hst] at hl
          exact absurd hl (by decide)
        have hage : ¬ (status = playabilityStatusLoginRequired ∧
            (getStr psd "reason").getD "" = playabilityFailedReasonAgeRestricted) := by
          rintro ⟨hl, -⟩
          rw [hst] at hl
          exact absurd hl (by decide)
        simp only [assertPlayability, h1, h2, if_neg hok, if_neg hbot,
          if_neg hage]
        rw [if_pos ⟨hst, hr⟩, if_pos hurl]
      · intro hst hr hurl
        have hbot : ¬ (status = playabilityStatusLoginRequired ∧
            (getStr psd "reason").getD "" = playabilityFailedReasonBotDetected) := by
          rintro ⟨hl, -⟩
          rw [hst] at hl
          exact absurd hl (by decide)
        have hage : ¬ (status = playabilityStatusLoginRequired ∧
            (getStr psd "reason").getD "" = playabilityFailedReasonAgeRestricted) := by
          rintro ⟨hl, -⟩
          rw [hst] at hl
          exact absurd hl (by decide)
        simp only [assertPlayability, h1, h2, if_neg hok, if_neg hbot,
          if_neg hage]
        rw [if_pos ⟨hst, hr⟩, if_neg hurl]
      · intro hno1 hno2
        have hbot : ¬ (status = playabilityStatusLoginRequired ∧
            (getStr psd "reason").getD "" = playabilityFailedReasonBotDetected) :=
          fun h => hno1 ⟨h.1, Or.inl h.2⟩
        have hage : ¬ (status = playabilityStatusLoginRequired ∧
            (getStr psd "reason").getD "" = playabilityFailedReasonAgeRestricted) :=
          fun h => hno1 ⟨h.1, Or.inr h.2⟩
        have herr : ¬ (status = playabilityStatusError ∧
            (getStr psd "reason").getD "" =
              playabilityFailedReasonVideoUnavailable) := hno2
        simp only [assertPlayability, h1, h2, if_neg hok, if_neg hbot,
          if_neg hage, if_neg herr]
  · intro psd h
    simp [extractSubReasons, h]

/-- C6 witness: the bot-detection branch on a concrete player response. -/
theorem assertPlayability_classification_witness :
    assertPlayability
      [("playabilityStatus", Json.obj
        [("status", Json.str "LOGIN_REQUIRED"),
         ("reason", Json.str playabilityFailedReasonBotDetected)])] "vid" =
      some (.requestBlocked "vid" none) := by
  have h := (assertPlayability_classification
      [("playabilityStatus", Json.obj
        [("status", Json.str "LOGIN_REQUIRED"),
         ("reason", Json.str playabilityFailedReasonBotDetected)])] "vid").2.1
      [("status", Json.str "LOGIN_REQUIRED"),
       ("reason", Json.str playabilityFailedReasonBotDetected)] rfl
  exact (h.2.2 "LOGIN_REQUIRED" rfl (by decide)).1 rfl rfl

/-! ### Claim C10: unchecked title assertion in BuildTranscriptList -/

theorem processCaptionTracks_none_title (videoID thumb : String)
    (tls : List TranslationLanguage) :
    ∀ (tracks : List Json)
      (acc : List (String × Transcript) × List (String × Transcript)),
      (∃ cm, Json.obj cm ∈ tracks ∧ (getStr cm "languageCode").isSome ∧
        (getStr cm "baseUrl").isSome) →
      processCaptionTracks videoID none thumb tls tracks acc = none := by
  intro tracks
  induction tracks with
  | nil =>
      rintro acc ⟨cm, hmem, -, -⟩
      simp at hmem
  | cons c rest ih =>
      rintro acc ⟨cm, hmem, hlc, hbu⟩
      cases hob : c.asObj with
      | none =>
          simp only [processCaptionTracks, hob]
          apply ih
          refine ⟨cm, ?_, hlc, hbu⟩
          rcases List.mem_cons.mp hmem with hc | hc
          · rw [← hc] at hob
            simp [Json.asObj] at hob
          · exact hc
      | some captionMap =>
          simp only [processCaptionTracks, hob]
          cases hlc2 : getStr captionMap "languageCode" with
          | none =>
              simp only []
              apply ih
              refine ⟨cm, ?_, hlc, hbu⟩
              rcases List.mem_cons.mp hmem with hc | hc
              · rw [← hc] at hob
                simp only [Json.asObj, Option.some.injEq] at hob
                rw [← hob] at hlc2
                rw [hlc2] at hlc
                simp at hlc
              · exact hc
          | some lc =>
              cases hbu2 : getStr captionMap "baseUrl" with
              | none =>
                  simp only []
                  apply ih
                  refine ⟨cm, ?_, hlc, hbu⟩
                  rcases List.mem_cons.mp hmem with hc | hc
                  · rw [← hc] at hob
                    simp only [Json.asObj, Option.some.injEq] at hob
                    rw [← hob] at hbu2
                    rw [hbu2] at hbu
                    simp at hbu
                  · exact hc
              | some bu => simp

/-- C10: `BuildTranscriptList` extracts the video title via an *unchecked*
type assertion for each accepted caption track: whenever the videoDetails
object lacks a string "title" and at least one caption track is an object
carrying a languageCode and a baseUrl, the build panics (modelled as
`none`) instead of returning any error; and the unparsable-data outcome of
the extraction step depends only on the presence of the videoDetails
object itself (given a playable video). -/
theorem buildTranscriptList_title_panic :
    (∀ (videoID : String) (videoDetailsJSON captionsJSON : JsonObj)
        (tracks : List Json),
      getStr videoDetailsJSON "title" = none →
      getArr captionsJSON "captionTracks" = some tracks →
      (∃ cm, Json.obj cm ∈ tracks ∧ (getStr cm "languageCode").isSome ∧
        (getStr cm "baseUrl").isSome) →
      buildTranscriptList videoID videoDetailsJSON captionsJSON = none) ∧
    (∀ (innertubeData : JsonObj) (videoID : String),
      extractVideoDetailsAndCaptionsJSON innertubeData videoID =
          .error (.youTubeDataUnparsable videoID) ↔
        (assertPlayability innertubeData videoID = none ∧
          getObj innertubeData "videoDetails" = none)) := by
  constructor
  · intro videoID videoDetailsJSON captionsJSON tracks htitle htracks hex
    simp only [buildTranscriptList, htitle, htracks, Option.getD_some]
    rw [processCaptionTracks_none_title videoID
      (thumbnailURLFromTemplate videoID)
      (parseTranslationLanguages captionsJSON) tracks ([], []) hex]
  · intro innertubeData videoID
    constructor
    · intro h
      cases hpl : assertPlayability innertubeData videoID with
      | some e =>
          simp only [extractVideoDetailsAndCaptionsJSON, hpl,
            Except.error.injEq] at h
          rw [h] at hpl
          exact absurd hpl (assertPlayability_never_unparsable _ _)
      | none =>
          cases hvd : getObj innertubeData "videoDetails" with
          | none => exact ⟨rfl, rfl⟩
          | some vd =>
              exfalso
              cases hcap : getObj innertubeData "captions" with
              | none =>
                  simp only [extractVideoDetailsAndCaptionsJSON, hpl, hvd,
                    hcap] at h
                  exact ApiError.noConfusion (Except.error.inj h)
              | some captions =>
                  cases hren : getObj captions "playerCaptionsTracklistRenderer" with
                  | none =>
                      simp only [extractVideoDetailsAndCaptionsJSON, hpl, hvd,
                        hcap, hren] at h
                      exact ApiError.noConfusion (Except.error.inj h)
                  | some cj =>
                      by_cases hct : (getField cj "captionTracks").isSome
                      · simp only [extractVideoDetailsAndCaptionsJSON, hpl, hvd,
                          hcap, hren, if_pos hct] at h
                        exact Except.noConfusion h
                      · simp only [extractVideoDetailsAndCaptionsJSON, hpl, hvd,
                          hcap, hren, if_neg hct] at h
                        exact ApiError.noConfusion (Except.error.inj h)
    · rintro ⟨hpl, hvd⟩
      simp only [extractVideoDetailsAndCaptionsJSON, hpl, hvd]

/-- C10 witness: concrete player data — playable, videoDetails present but
without a string title, one caption track with languageCode and baseUrl —
drives `buildTranscriptList` into the panic. -/
theorem buildTranscriptList_title_panic_witness :
    buildTranscriptList "vid" [("other", Json.str "x")]
      [("captionTracks", Json.arr
        [Json.obj [("languageCode", Json.str "en"),
                   ("baseUrl", Json.str "http://u")]])] = none := by
  apply buildTranscriptList_title_panic.1 "vid" [("other", Json.str "x")]
    [("captionTracks", Json.arr
      [Json.obj [("languageCode", Json.str "en"),
                 ("baseUrl", Json.str "http://u")]])]
    [Json.obj [("languageCode", Json.str "en"),
               ("baseUrl", Json.str "http://u")]] rfl rfl
  exact ⟨[("languageCode", Json.str "en"), ("baseUrl", Json.str "http://u")],
    by simp, by rfl, by rfl⟩

/-! ## Fetch pipeline and the blocked-retry loop (install.sh lines 633-706,
claim C5) -/

/-- Go `strings.Contains`: substring test on character lists. -/
def listHasSub (needle : List Char) : List Char → Bool
  | [] => needle.isEmpty
  | c :: t => needle.isPrefixOf (c :: t) || listHasSub needle t

/-- Go `strings.Contains hay needle`. -/
def strContains (hay needle : String) : Bool :=
  listHasSub needle.toList hay.toList

def isAsciiSpace (c : Char) : Bool :=
  c = ' ' || c = '\t' || c = '\n' || c = '\r' || c = '\x0b' || c = '\x0c'

def isKeyTokenChar (c : Char) : Bool :=
  ('a' ≤ c && c ≤ 'z') || ('A' ≤ c && c ≤ 'Z') || ('0' ≤ c && c ≤ '9') ||
    c = '_' || c = '-'

/-- The literal part of the Go regexp
`"INNERTUBE_API_KEY":\s*"([a-zA-Z0-9_-]+)"`. -/
def innertubeKeyLiteral : List Char := "\"INNERTUBE_API_KEY\":".toList

/-- Attempt the regexp tail (`\s*"([a-zA-Z0-9_-]+)"`) right after the
literal. -/
def matchKeyTail (l : List Char) : Option String :=
  match l.dropWhile isAsciiSpace with
  | '"' :: rest =>
      match rest.takeWhile isKeyTokenChar, rest.dropWhile isKeyTokenChar with
      | [], _ => none
      | key, '"' :: _ => some (String.mk key)
      | _, _ => none
  | _ => none

/-- Leftmost-match scan for the INNERTUBE_API_KEY regexp. -/
def scanInnertubeKey : List Char → Option String
  | [] => none
  | c :: t =>
      if innertubeKeyLiteral.isPrefixOf (c :: t) then
        match matchKeyTail ((c :: t).drop innertubeKeyLiteral.length) with
        | some key => some key
        | none => scanInnertubeKey t
      else scanInnertubeKey t

/-- Method `TranscriptListFetcher.extractInnertubeAPIKey` (install.sh lines
694-706): regexp hit wins; otherwise a CAPTCHA marker means IP-blocked,
else unparsable data. -/
def extractInnertubeAPIKey (html videoID : String) : Except ApiError String :=
  match scanInnertubeKey html.toList with
  | some key => .ok key
  | none =>
      if strContains html "class=\"g-recaptcha\"" then
        .error (.ipBlocked videoID)
      else
        .error (.youTubeDataUnparsable videoID)

/-- Pipeline stages of one acquisition attempt, for stating which stages
execute. -/
inductive Stage where
  | pageFetch
  | keyExtraction
  | playerFetch
  | extraction
deriving DecidableEq, Repr

/-- The network outcomes of one attempt: the result of `fetchVideoHTML`
and, per extracted API key, the result of `fetchInnertubeData`.  (Both are
blocking HTTP round trips — external collaborators.) -/
structure AttemptEnv where
  htmlResult : Except ApiError String
  innertubeResult : String → Except ApiError JsonObj

/-- Result of `fetchVideoDetailsAndCaptionsJSON` together with the seconds
slept before each retry and the stages executed. -/
structure FetchOutcome where
  result : Except ApiError (JsonObj × JsonObj)
  sleeps : List Nat
  stages : List Stage

/-- The Go type assertion `err.(*RequestBlocked)`: matches only the exact
dynamic type `*RequestBlocked` — in particular *not* `*IpBlocked`, which
merely embeds it. -/
def isRequestBlocked : ApiError → Bool
  | .requestBlocked _ _ => true
  | _ => false

/-- Value `retries` computed in the catch block (install.sh lines 677-680):
the retry count of the proxy configuration, 0 when no proxy is configured. -/
def allowedRetries : Option ProxyConfig → Nat
  | none => 0
  | some p => p.retriesWhenBlocked

/-- Method `TranscriptListFetcher.fetchVideoDetailsAndCaptionsJSON` (install.sh
lines 657-692).  Stage errors propagate immediately; only a
`RequestBlocked` error from the extraction step enters the retry check:
while `tryNumber + 1 < retries`, sleep `tryNumber + 1` seconds and redo
the whole page→key→player sequence; once exhausted, annotate with the
proxy configuration. -/
def fetchVideoDetailsAndCaptionsJSON (env : Nat → AttemptEnv)
    (proxyConfig : Option ProxyConfig) (videoID : String)
    (tryNumber : Nat) : FetchOutcome :=
  match (env tryNumber).htmlResult with
  | .error e => ⟨.error e, [], [.pageFetch]⟩
  | .ok html =>
      match extractInnertubeAPIKey html videoID with
      | .error e => ⟨.error e, [], [.pageFetch, .keyExtraction]⟩
      | .ok apiKey =>
          match (env tryNumber).innertubeResult apiKey with
          | .error e => ⟨.error e, [], [.pageFetch, .keyExtraction, .playerFetch]⟩
          | .ok innertubeData =>
              match extractVideoDetailsAndCaptionsJSON innertubeData videoID with
              | .ok v =>
                  ⟨.ok v, [],
                    [.pageFetch, .keyExtraction, .playerFetch, .extraction]⟩
              | .error e =>
                  if isRequestBlocked e then
                    if h : tryNumber + 1 < allowedRetries proxyConfig then
                      let rest := fetchVideoDetailsAndCaptionsJSON env
                        proxyConfig videoID (tryNumber + 1)
                      ⟨rest.result, (tryNumber + 1) :: rest.sleeps,
                        [.pageFetch, .keyExtraction, .playerFetch, .extraction]
                          ++ rest.stages⟩
                    else
                      ⟨.error (withProxyConfig e proxyConfig), [],
                        [.pageFetch, .keyExtraction, .playerFetch, .extraction]⟩
                  else
                    ⟨.error e, [],
                      [.pageFetch, .keyExtraction, .playerFetch, .extraction]⟩
termination_by allowedRetries proxyConfig - tryNumber
decreasing_by omega

/-! ### Branch lemmas for the fetch pipeline -/

theorem fetchVDC_html_error (env : Nat → AttemptEnv) (p : Option ProxyConfig)
    (vid : String) (t : Nat) (e : ApiError)
    (h : (env t).htmlResult = .error e) :
    fetchVideoDetailsAndCaptionsJSON env p vid t = ⟨.error e, [], [.pageFetch]⟩ := by
  unfold fetchVideoDetailsAndCaptionsJSON
  rw [h]

theorem fetchVDC_key_error (env : Nat → AttemptEnv) (p : Option ProxyConfig)
    (vid : String) (t : Nat) (html : String) (e : ApiError)
    (h1 : (env t).htmlResult = .ok html)
    (h2 : extractInnertubeAPIKey html vid = .error e) :
    fetchVideoDetailsAndCaptionsJSON env p vid t =
      ⟨.error e, [], [.pageFetch, .keyExtraction]⟩ := by
  unfold fetchVideoDetailsAndCaptionsJSON
  simp only [h1, h2]

theorem fetchVDC_player_error (env : Nat → AttemptEnv) (p : Option ProxyConfig)
    (vid : String) (t : Nat) (html apiKey : String) (e : ApiError)
    (h1 : (env t).htmlResult = .ok html)
    (h2 : extractInnertubeAPIKey html vid = .ok apiKey)
    (h3 : (env t).innertubeResult apiKey = .error e) :
    fetchVideoDetailsAndCaptionsJSON env p vid t =
      ⟨.error e, [], [.pageFetch, .keyExtraction, .playerFetch]⟩ := by
  unfold fetchVideoDetailsAndCaptionsJSON
  simp only [h1, h2, h3]

theorem fetchVDC_success (env : Nat → AttemptEnv) (p : Option ProxyConfig)
    (vid : String) (t : Nat) (html apiKey : String) (innertubeData : JsonObj)
    (v : JsonObj × JsonObj)
    (h1 : (env t).htmlResult = .ok html)
    (h2 : extractInnertubeAPIKey html vid = .ok apiKey)
    (h3 : (env t).innertubeResult apiKey = .ok innertubeData)
    (h4 : extractVideoDetailsAndCaptionsJSON innertubeData vid = .ok v) :
    fetchVideoDetailsAndCaptionsJSON env p vid t =
      ⟨.ok v, [], [.pageFetch, .keyExtraction, .playerFetch, .extraction]⟩ := by
  unfold fetchVideoDetailsAndCaptionsJSON
  simp only [h1, h2, h3, h4]

theorem fetchVDC_blocked_exhausted (env : Nat → AttemptEnv)
    (p : Option ProxyConfig) (vid : String) (t : Nat)
    (html apiKey : String) (innertubeData : JsonObj)
    (h1 : (env t).htmlResult = .ok html)
    (h2 : extractInnertubeAPIKey html vid = .ok apiKey)
    (h3 : (env t).innertubeResult apiKey = .ok innertubeData)
    (h4 : extractVideoDetailsAndCaptionsJSON innertubeData vid =
      .error (.requestBlocked vid none))
    (hlt : ¬ (t + 1 < allowedRetries p)) :
    fetchVideoDetailsAndCaptionsJSON env p vid t =
      ⟨.error (.requestBlocked vid p), [],
        [.pageFetch, .keyExtraction, .playerFetch, .extraction]⟩ := by
  unfold fetchVideoDetailsAndCaptionsJSON
  simp only [h1, h2, h3, h4]
  simp [isRequestBlocked, withProxyConfig, hlt]

theorem fetchVDC_blocked_step (env : Nat → AttemptEnv)
    (p : Option ProxyConfig) (vid : String) (t : Nat)
    (html apiKey : String) (innertubeData : JsonObj)
    (h1 : (env t).htmlResult = .ok html)
    (h2 : extractInnertubeAPIKey html vid = .ok apiKey)
    (h3 : (env t).innertubeResult apiKey = .ok innertubeData)
    (h4 : extractVideoDetailsAndCaptionsJSON innertubeData vid =
      .error (.requestBlocked vid none))
    (hlt : t + 1 < allowedRetries p) :
    fetchVideoDetailsAndCaptionsJSON env p vid t =
      ⟨(fetchVideoDetailsAndCaptionsJSON env p vid (t + 1)).result,
        (t + 1) :: (fetchVideoDetailsAndCaptionsJSON env p vid (t + 1)).sleeps,
        [.pageFetch, .keyExtraction, .playerFetch, .extraction]
          ++ (fetchVideoDetailsAndCaptionsJSON env p vid (t + 1)).stages⟩ := by
  conv_lhs => unfold fetchVideoDetailsAndCaptionsJSON
  simp only [h1, h2, h3, h4]
  simp [isRequestBlocked, hlt]

/-- When every attempt is blocked by bot detection, the loop sleeps
`t+1, t+2, …, retries-1` seconds and finally surfaces the blocked error
annotated with the proxy configuration. -/
theorem fetchVDC_all_blocked (env : Nat → AttemptEnv) (p : Option ProxyConfig)
    (vid : String)
    (hb : ∀ i : Nat, ∃ html apiKey innertubeData,
      (env i).htmlResult = .ok html ∧
      extractInnertubeAPIKey html vid = .ok apiKey ∧
      (env i).innertubeResult apiKey = .ok innertubeData ∧
      extractVideoDetailsAndCaptionsJSON innertubeData vid =
        .error (.requestBlocked vid none)) :
    ∀ t, (fetchVideoDetailsAndCaptionsJSON env p vid t).result =
        .error (.requestBlocked vid p) ∧
      (fetchVideoDetailsAndCaptionsJSON env p vid t).sleeps =
        List.range' (t + 1) (allowedRetries p - 1 - t) := by
  have key : ∀ k t, allowedRetries p - t = k →
      (fetchVideoDetailsAndCaptionsJSON env p vid t).result =
          .error (.requestBlocked vid p) ∧
        (fetchVideoDetailsAndCaptionsJSON env p vid t).sleeps =
          List.range' (t + 1) (allowedRetries p - 1 - t) := by
    intro k
    induction k with
    | zero =>
        intro t hk
        obtain ⟨html, apiKey, innertubeData, h1, h2, h3, h4⟩ := hb t
        have hlt : ¬ (t + 1 < allowedRetries p) := by omega
        rw [fetchVDC_blocked_exhausted env p vid t html apiKey innertubeData
          h1 h2 h3 h4 hlt]
        have hz : allowedRetries p - 1 - t = 0 := by omega
        rw [hz]
        exact ⟨rfl, rfl⟩
    | succ k ih =>
        intro t hk
        obtain ⟨html, apiKey, innertubeData, h1, h2, h3, h4⟩ := hb t
        by_cases hlt : t + 1 < allowedRetries p
        · have hrec := ih (t + 1) (by omega)
          rw [fetchVDC_blocked_step env p vid t html apiKey innertubeData
            h1 h2 h3 h4 hlt]
          refine ⟨hrec.1, ?_⟩
          rw [hrec.2]
          have harith : allowedRetries p - 1 - t =
              (allowedRetries p - 1 - (t + 1)) + 1 := by omega
          rw [harith, List.range'_succ]
        · rw [fetchVDC_blocked_exhausted env p vid t html apiKey innertubeData
            h1 h2 h3 h4 hlt]
          have hz : allowedRetries p - 1 - t = 0 := by omega
          rw [hz]
          exact ⟨rfl, rfl⟩
  intro t
  exact key (allowedRetries p - t) t rfl

/-! ### Claim C5: which blocked failures enter the retry loop -/

/-- Player response whose extraction succeeds. -/
def cexInnertube : JsonObj :=
  [("videoDetails", Json.obj [("title", Json.str "T")]),
   ("captions", Json.obj
     [("playerCaptionsTracklistRenderer",
        Json.obj [("captionTracks", Json.arr [])])])]

/-- Page body containing the API key. -/
def cexHtml : String := "\"INNERTUBE_API_KEY\":\"abc\""

/-- Environment: attempt 0 fails at the page fetch with HTTP 429
(`IpBlocked`), every later attempt would fully succeed. -/
def cexEnv : Nat → AttemptEnv := fun i =>
  if i = 0 then ⟨.error (.ipBlocked "vid"), fun _ => .ok cexInnertube⟩
  else ⟨.ok cexHtml, fun _ => .ok cexInnertube⟩

/-- A rotating proxy allowing 10 retries when blocked. -/
def cexProxy : ProxyConfig := .webshare "user" "pass" 10

/-- C5 counterexample: a blocked failure arising from an HTTP 429 response
(`IpBlocked`, raised by the page fetch) does *not* trigger the retry loop,
although retries remain (`0 + 1 < 10`) and the next attempt would succeed:
the coordinator surfaces the error immediately, with no sleeps and no
proxy-configuration annotation. -/
theorem fetchVideoDetails_429_not_retried :
    0 + 1 < allowedRetries (some cexProxy) ∧
    (fetchVideoDetailsAndCaptionsJSON cexEnv (some cexProxy) "vid" 0).result =
      .error (.ipBlocked "vid") ∧
    (fetchVideoDetailsAndCaptionsJSON cexEnv (some cexProxy) "vid" 0).sleeps = [] ∧
    (fetchVideoDetailsAndCaptionsJSON cexEnv (some cexProxy) "vid" 1).result =
      .ok ([("title", Json.str "T")],
        [("captionTracks", Json.arr [])]) := by
  have h0 : fetchVideoDetailsAndCaptionsJSON cexEnv (some cexProxy) "vid" 0 =
      ⟨.error (.ipBlocked "vid"), [], [.pageFetch]⟩ :=
    fetchVDC_html_error cexEnv (some cexProxy) "vid" 0 (.ipBlocked "vid") rfl
  have h1 : fetchVideoDetailsAndCaptionsJSON cexEnv (some cexProxy) "vid" 1 =
      ⟨.ok ([("title", Json.str "T")], [("captionTracks", Json.arr [])]), [],
        [.pageFetch, .keyExtraction, .playerFetch, .extraction]⟩ :=
    fetchVDC_success cexEnv (some cexProxy) "vid" 1 cexHtml "abc" cexInnertube
      ([("title", Json.str "T")], [("captionTracks", Json.arr [])])
      rfl rfl rfl rfl
  exact ⟨by decide, by rw [h0], by rw [h0], by rw [h1]⟩

/-- C5 (amended): only a blocked failure raised as `RequestBlocked` by the
player-response classification (the bot-detection playability reason)
enters the retry loop.  Blocked failures from an HTTP 429 page response or
a CAPTCHA marker (`IpBlocked`) — like every other stage error — surface
immediately, with no sleeps and no proxy annotation.  When every attempt
is blocked by bot detection, the loop retries while
`attemptIndex + 1 < allowedRetries` (the retry count of the proxy
configuration, 0 without a proxy), sleeping `attemptIndex + 1` seconds before each
retry of the whole page→key→player sequence, and exhaustion surfaces the
blocked failure annotated with the proxy configuration. -/
theorem fetchVideoDetails_retry_only_requestBlocked :
    (∀ (env : Nat → AttemptEnv) (p : Option ProxyConfig) (vid : String)
        (t : Nat) (e : ApiError),
      (env t).htmlResult = .error e →
      fetchVideoDetailsAndCaptionsJSON env p vid t =
        ⟨.error e, [], [.pageFetch]⟩) ∧
    (∀ (env : Nat → AttemptEnv) (p : Option ProxyConfig) (vid : String)
        (t : Nat) (html : String) (e : ApiError),
      (env t).htmlResult = .ok html →
      extractInnertubeAPIKey html vid = .error e →
      fetchVideoDetailsAndCaptionsJSON env p vid t =
        ⟨.error e, [], [.pageFetch, .keyExtraction]⟩) ∧
    (∀ (env : Nat → AttemptEnv) (p : Option ProxyConfig) (vid : String)
        (t : Nat) (html apiKey : String) (innertubeData : JsonObj)
        (v : JsonObj × JsonObj),
      (env t).htmlResult = .ok html →
      extractInnertubeAPIKey html vid = .ok apiKey →
      (env t).innertubeResult apiKey = .ok innertubeData →
      extractVideoDetailsAndCaptionsJSON innertubeData vid = .ok v →
      fetchVideoDetailsAndCaptionsJSON env p vid t =
        ⟨.ok v, [], [.pageFetch, .keyExtraction, .playerFetch, .extraction]⟩) ∧
    (∀ (env : Nat → AttemptEnv) (p : Option ProxyConfig) (vid : String),
      (∀ i : Nat, ∃ html apiKey innertubeData,
        (env i).htmlResult = .ok html ∧
        extractInnertubeAPIKey html vid = .ok apiKey ∧
        (env i).innertubeResult apiKey = .ok innertubeData ∧
        extractVideoDetailsAndCaptionsJSON innertubeData vid =
          .error (.requestBlocked vid none)) →
      ∀ t, (fetchVideoDetailsAndCaptionsJSON env p vid t).result =
          .error (.requestBlocked vid p) ∧
        (fetchVideoDetailsAndCaptionsJSON env p vid t).sleeps =
          List.range' (t + 1) (allowedRetries p - 1 - t)) :=
  ⟨fetchVDC_html_error, fetchVDC_key_error, fetchVDC_success,
    fetchVDC_all_blocked⟩

/-- C5 witness: the early-return branch applied at a concrete environment
whose page fetch yields HTTP 429, with a proxy configured. -/
theorem fetchVideoDetails_retry_only_requestBlocked_witness :
    fetchVideoDetailsAndCaptionsJSON
      (fun _ => ⟨.error (.ipBlocked "w"), fun _ => .ok []⟩)
      (some (.webshare "u" "p" 5)) "w" 0 =
      ⟨.error (.ipBlocked "w"), [], [.pageFetch]⟩ :=
  fetchVideoDetails_retry_only_requestBlocked.1
    (fun _ => ⟨.error (.ipBlocked "w"), fun _ => .ok []⟩)
    (some (.webshare "u" "p" 5)) "w" 0 (.ipBlocked "w") rfl

/-! ## Consent-interstitial handling (install.sh lines 788-826, claim C7) -/

/-- An HTTP cookie as set by `createConsentCookie`. -/
structure Cookie where
  name : String
  value : String
  domain : String
deriving DecidableEq, Repr

/-- The consent-interstitial marker tested by `fetchVideoHTML`. -/
def consentMarker : String := "action=\"https://consent.youtube.com/s\""

/-- The literal part of the Go regexp `name="v" value="(.*?)"`. -/
def consentValueLiteral : List Char := "name=\"v\" value=\"".toList

/-- Leftmost match of `name="v" value="(.*?)"`: at each occurrence of the
literal, the non-greedy group takes characters up to the first `"`;
`.` does not match a newline, so if a newline comes first the scan moves
on to the next occurrence. -/
def scanConsentValue : List Char → Option String
  | [] => none
  | c :: t =>
      if consentValueLiteral.isPrefixOf (c :: t) then
        let after := (c :: t).drop consentValueLiteral.length
        match after.dropWhile (fun ch => ch ≠ '"' && ch ≠ '\n') with
        | '"' :: _ =>
            some (String.mk (after.takeWhile (fun ch => ch ≠ '"' && ch ≠ '\n')))
        | _ => scanConsentValue t
      else scanConsentValue t

/-- Method `TranscriptListFetcher.createConsentCookie` (install.sh lines 788-804):
extract the hidden form value and add a `CONSENT=YES+<v>` cookie scoped to
`.youtube.com` to the cookie store; fail when the pattern is absent. -/
def createConsentCookie (html videoID : String) (jar : List Cookie) :
    Except ApiError (List Cookie) :=
  match scanConsentValue html.toList with
  | none => .error (.failedToCreateConsentCookie videoID)
  | some v =>
      .ok (jar ++ [{ name := "CONSENT", value := "YES+" ++ v,
                     domain := ".youtube.com" }])

/-- Method `TranscriptListFetcher.fetchVideoHTML` (install.sh lines 806-826).
`pages i` is the body produced by the `i`-th `fetchHTML` call of this
invocation (an external network round trip); the result carries the final
cookie jar and the number of fetches performed. -/
def fetchVideoHTML (pages : Nat → Except ApiError String) (videoID : String)
    (jar : List Cookie) : Except ApiError String × List Cookie × Nat :=
  match pages 0 with
  | .error e => (.error e, jar, 1)
  | .ok html =>
      if strContains html consentMarker then
        match createConsentCookie html videoID jar with
        | .error e => (.error e, jar, 1)
        | .ok jar2 =>
            match pages 1 with
            | .error e => (.error e, jar2, 2)
            | .ok html2 =>
                if strContains html2 consentMarker then
                  (.error (.failedToCreateConsentCookie videoID), jar2, 2)
                else
                  (.ok html2, jar2, 2)
      else
        (.ok html, jar, 1)

/-- C7: when the first body carries the consent marker, the fetcher
extracts the hidden form value, adds the `CONSENT` cookie scoped to
`.youtube.com` to the cookie store of the transport, and re-fetches exactly
once; if the marker persists in the re-fetched body the result is the
consent-cookie failure; a body without the marker is returned after a
single fetch; and a consent failure at the page-fetch stage never reaches
key extraction in the pipeline. -/
theorem fetchVideoHTML_consent_flow :
    (∀ (pages : Nat → Except ApiError String) (vid : String)
        (jar : List Cookie) (html : String),
      pages 0 = .ok html → strContains html consentMarker = false →
      fetchVideoHTML pages vid jar = (.ok html, jar, 1)) ∧
    (∀ (pages : Nat → Except ApiError String) (vid : String)
        (jar : List Cookie) (html html2 : String) (v : String),
      pages 0 = .ok html → strContains html consentMarker = true →
      scanConsentValue html.toList = some v →
      pages 1 = .ok html2 → strContains html2 consentMarker = false →
      fetchVideoHTML pages vid jar =
        (.ok html2,
          jar ++ [{ name := "CONSENT", value := "YES+" ++ v,
                    domain := ".youtube.com" }], 2)) ∧
    (∀ (pages : Nat → Except ApiError String) (vid : String)
        (jar : List Cookie) (html html2 : String) (v : String),
      pages 0 = .ok html → strContains html consentMarker = true →
      scanConsentValue html.toList = some v →
      pages 1 = .ok html2 → strContains html2 consentMarker = true →
      fetchVideoHTML pages vid jar =
        (.error (.failedToCreateConsentCookie vid),
          jar ++ [{ name := "CONSENT", value := "YES+" ++ v,
                    domain := ".youtube.com" }], 2)) ∧
    (∀ (env : Nat → AttemptEnv) (p : Option ProxyConfig) (vid : String)
        (t : Nat),
      (env t).htmlResult = .error (.failedToCreateConsentCookie vid) →
      (fetchVideoDetailsAndCaptionsJSON env p vid t).result =
          .error (.failedToCreateConsentCookie vid) ∧
        Stage.keyExtraction ∉
          (fetchVideoDetailsAndCaptionsJSON env p vid t).stages) := by
  refine ⟨?_, ?_, ?_, ?_⟩
  · intro pages vid jar html h0 hmark
    simp only [fetchVideoHTML, h0, hmark, Bool.false_eq_true, if_false]
  · intro pages vid jar html html2 v h0 hmark hv h1 hmark2
    simp only [fetchVideoHTML, h0, hmark, if_true, createConsentCookie, hv,
      h1, hmark2, Bool.false_eq_true, if_false]
  · intro pages vid jar html html2 v h0 hmark hv h1 hmark2
    simp only [fetchVideoHTML, h0, hmark, if_true, createConsentCookie, hv,
      h1, hmark2, if_true]
  · intro env p vid t h
    rw [fetchVDC_html_error env p vid t (.failedToCreateConsentCookie vid) h]
    exact ⟨rfl, by simp⟩

/-- C7 witness: a concrete interstitial page whose marker persists after
the retried fetch — the consent cookie is set, exactly two fetches happen,
and the consent-cookie failure is surfaced. -/
theorem fetchVideoHTML_consent_flow_witness :
    fetchVideoHTML
      (fun _ => .ok ("<form action=\"https://consent.youtube.com/s\">" ++
        "<input name=\"v\" value=\"xyz\"></form>")) "vid" [] =
      (.error (.failedToCreateConsentCookie "vid"),
        [{ name := "CONSENT", value := "YES+xyz", domain := ".youtube.com" }],
        2) := by
  have h := fetchVideoHTML_consent_flow.2.2.1
    (fun _ => .ok ("<form action=\"https://consent.youtube.com/s\">" ++
      "<input name=\"v\" value=\"xyz\"></form>")) "vid" []
    ("<form action=\"https://consent.youtube.com/s\">" ++
      "<input name=\"v\" value=\"xyz\"></form>")
    ("<form action=\"https://consent.youtube.com/s\">" ++
      "<input name=\"v\" value=\"xyz\"></form>") "xyz"
    rfl (by decide) (by decide) rfl (by decide)
  simpa using h

/-! ## Snippet parser (install.sh lines 880-981, claim C8) -/

/-- Digit-string value. -/
def digitsVal (l : List Char) : Nat :=
  l.foldl (fun n c => 10 * n + (c.toNat - 48)) 0

/-- Exponent tail of a decimal literal. -/
def parseExpTail (mantissa : ℚ) (t : List Char) : Option ℚ :=
  let se : Bool × List Char :=
    match t with
    | '+' :: r => (false, r)
    | '-' :: r => (true, r)
    | _ => (false, t)
  let digits := se.2.takeWhile Char.isDigit
  let rest := se.2.dropWhile Char.isDigit
  if digits = [] ∨ rest ≠ [] then none
  else if se.1 then some (mantissa / (10 : ℚ) ^ digitsVal digits)
  else some (mantissa * (10 : ℚ) ^ digitsVal digits)

/-- All-or-nothing parse of a decimal float literal
`[+|-] digits ['.' digits] [('e'|'E') [+|-] digits]` (the grammar
`strconv.ParseFloat` accepts for ordinary decimals). -/
def parseDecimal (l : List Char) : Option ℚ :=
  let signAndRest : ℚ × List Char :=
    match l with
    | '+' :: t => (1, t)
    | '-' :: t => (-1, t)
    | _ => (1, l)
  let l1 := signAndRest.2
  let intPart := l1.takeWhile Char.isDigit
  let l2 := l1.dropWhile Char.isDigit
  let fracAndRest : List Char × List Char :=
    match l2 with
    | '.' :: t => (t.takeWhile Char.isDigit, t.dropWhile Char.isDigit)
    | _ => ([], l2)
  let fracPart := fracAndRest.1
  let l3 := fracAndRest.2
  if intPart = [] ∧ fracPart = [] then none
  else
    let mantissa : ℚ := signAndRest.1 * ((digitsVal intPart : ℚ) +
      (digitsVal fracPart : ℚ) / ((10 : ℚ) ^ fracPart.length))
    match l3 with
    | [] => some mantissa
    | 'e' :: t => parseExpTail mantissa t
    | 'E' :: t => parseExpTail mantissa t
    | _ => none

/-- Characters the fmt scanner collects into a float token. -/
def floatTokenChar (c : Char) : Bool :=
  c.isDigit || c = '.' || c = 'e' || c = 'E' || c = '+' || c = '-'

/-- Model of `fmt.Sscanf(s, "%f", &x)` with the error ignored (install.sh
lines 924-926): skip leading spaces, collect the float token, parse it
all-or-nothing; on failure the scanned variable keeps its zero value. -/
def parseGoFloat (s : String) : ℚ :=
  let l := s.toList.dropWhile isAsciiSpace
  (parseDecimal (l.takeWhile floatTokenChar)).getD 0

/-- Model of Go stdlib `html.UnescapeString` (an external collaborator)
restricted to the common named/numeric entities; `fuel` bounds the
recursion and is instantiated with the input length, which the scan never
exhausts since every step consumes at least one character. -/
def unescapeAux : Nat → List Char → List Char
  | 0, l => l
  | _ + 1, [] => []
  | fuel + 1, c :: t =>
      if c = '&' then
        if "amp;".toList.isPrefixOf t then '&' :: unescapeAux fuel (t.drop 4)
        else if "lt;".toList.isPrefixOf t then '<' :: unescapeAux fuel (t.drop 3)
        else if "gt;".toList.isPrefixOf t then '>' :: unescapeAux fuel (t.drop 3)
        else if "quot;".toList.isPrefixOf t then
          '"' :: unescapeAux fuel (t.drop 5)
        else if "#39;".toList.isPrefixOf t then
          Char.ofNat 39 :: unescapeAux fuel (t.drop 4)
        else c :: unescapeAux fuel t
      else c :: unescapeAux fuel t

def unescapeHTML (s : String) : String :=
  String.mk (unescapeAux s.toList.length s.toList)

/-- Method `TranscriptParser.removeAllHTMLTags` (install.sh lines 948-951): the
regexp `<[^>]*>` removes every maximal `<`…first-`>` span; a `<` with no
later `>` stays.  Fuel as in `unescapeAux`. -/
def stripAllTagsAux : Nat → List Char → List Char
  | 0, l => l
  | _ + 1, [] => []
  | fuel + 1, c :: t =>
      if c = '<' ∧ t.contains '>' then
        stripAllTagsAux fuel ((t.dropWhile (fun ch => ch ≠ '>')).drop 1)
      else c :: stripAllTagsAux fuel t

def removeAllHTMLTags (text : String) : String :=
  String.mk (stripAllTagsAux text.toList.length text.toList)

def isAsciiLetter (c : Char) : Bool :=
  ('a' ≤ c && c ≤ 'z') || ('A' ≤ c && c ≤ 'Z')

def isAsciiAlnum (c : Char) : Bool :=
  isAsciiLetter c || ('0' ≤ c && c ≤ '9')

/-- Match of the regexp `(?i)</?([a-zA-Z][a-zA-Z0-9]*)\b[^>]*>` starting
right after a `<`: optional `/`, a letter-led name, a word boundary (the
name run is maximal, so only a following `_` can break it), then anything
up to the first `>`.  Returns the captured name, the matched characters
after the `<`, and the remainder. -/
def tryTagAfterLt (l : List Char) : Option (String × List Char × List Char) :=
  let slashAndRest : List Char × List Char :=
    match l with
    | '/' :: t => (['/'], t)
    | _ => ([], l)
  match slashAndRest.2 with
  | [] => none
  | c0 :: t1 =>
      if isAsciiLetter c0 then
        let nameTail := t1.takeWhile isAsciiAlnum
        let afterName := t1.dropWhile isAsciiAlnum
        match afterName with
        | '_' :: _ => none
        | _ =>
            let body := afterName.takeWhile (fun ch => ch ≠ '>')
            match afterName.dropWhile (fun ch => ch ≠ '>') with
            | '>' :: rem =>
                some (String.mk (c0 :: nameTail),
                  slashAndRest.1 ++ (c0 :: nameTail) ++ body ++ ['>'], rem)
            | _ => none
      else none

/-- ASCII lowercasing; `strings.ToLower` restricted to the ASCII names the
tag regexp can capture (`[a-zA-Z][a-zA-Z0-9]*`), on which the two agree. -/
def toLowerAscii (c : Char) : Char :=
  if 'A' ≤ c ∧ c ≤ 'Z' then Char.ofNat (c.toNat + 32) else c

def lowerString (s : String) : String :=
  String.mk (s.toList.map toLowerAscii)

/-- The allow-list of `NewTranscriptParser` (install.sh lines 886-894). -/
def formattingTags : List String :=
  ["strong", "em", "b", "i", "mark", "small", "del", "ins", "sub", "sup"]

/-- Method `TranscriptParser.removeNonFormattingHTMLTags` (install.sh lines
953-981): every tag matched by the regexp is kept verbatim (attributes
included) when its lowercased name is allow-listed, deleted otherwise;
non-tag text is untouched. -/
def stripKeepAux (allow : List String) : Nat → List Char → List Char
  | 0, l => l
  | _ + 1, [] => []
  | fuel + 1, c :: t =>
      if c = '<' then
        match tryTagAfterLt t with
        | some (name, matched, rem) =>
            if allow.contains (lowerString name) then
              ('<' :: matched) ++ stripKeepAux allow fuel rem
            else
              stripKeepAux allow fuel rem
        | none => c :: stripKeepAux allow fuel t
      else c :: stripKeepAux allow fuel t

def removeNonFormattingHTMLTags (text : String) : String :=
  String.mk (stripKeepAux formattingTags text.toList.length text.toList)

/-- An already-tokenized XML element: tag name, attributes, text content.
(`etree` tokenization of the timed-text payload is the external XML
library; the parser walks the tokenized tree.) -/
structure XMLElement where
  tag : String
  attributes : List (String × String)
  text : String
deriving DecidableEq, Repr

/-- The etree `SelectAttrValue` helper: attribute value or the given default. -/
def selectAttrValue (e : XMLElement) (key dflt : String) : String :=
  (e.attributes.lookup key).getD dflt

/-- The per-snippet text processing of `TranscriptParser.Parse`: unescape
HTML entities first, then strip tags according to `preserveFormatting`. -/
def processSnippetText (preserveFormatting : Bool) (raw : String) : String :=
  if ¬ preserveFormatting then removeAllHTMLTags (unescapeHTML raw)
  else removeNonFormattingHTMLTags (unescapeHTML raw)

/-- Method `TranscriptParser.Parse` (install.sh lines 897-946) over the tokenized
root children: walk elements in document order, keep only `text` elements
with nonempty text, parse `start`/`dur` with default `"0.0"`, process the
text. -/
def transcriptParse (preserveFormatting : Bool) :
    List XMLElement → List FetchedTranscriptSnippet
  | [] => []
  | e :: rest =>
      if e.tag ≠ "text" then transcriptParse preserveFormatting rest
      else if e.text = "" then transcriptParse preserveFormatting rest
      else
        { text := processSnippetText preserveFormatting e.text,
          start := parseGoFloat (selectAttrValue e "start" "0.0"),
          duration := parseGoFloat (selectAttrValue e "dur" "0.0") } ::
          transcriptParse preserveFormatting rest

/-- Evaluation of the default attribute string: list scanning reduces
definitionally, the final rational arithmetic is discharged by
`norm_num`. -/
theorem parseGoFloat_default : parseGoFloat "0.0" = 0 := by
  have h : parseGoFloat "0.0" =
      1 * ((digitsVal ['0'] : ℚ) +
        (digitsVal ['0'] : ℚ) / (10 : ℚ) ^ (1 : ℕ)) := rfl
  rw [h]
  norm_num [digitsVal, show '0'.toNat - 48 = 0 from rfl]

/-- C8: the parser walks top-level `text` elements in document order,
skips empty-text elements, defaults absent or unparsable start/dur to 0
without aborting, unescapes entities before stripping tags, strips all
tags without formatting and only non-allow-listed tags (case-insensitive,
kept verbatim with attributes) with formatting; including the concrete
examples of spec section 8. -/
theorem transcriptParser_spec :
    (∀ (pf : Bool) (elems : List XMLElement),
      transcriptParse pf elems =
        (elems.filter (fun e => e.tag = "text" ∧ e.text ≠ "")).map
          (fun e =>
            { text := processSnippetText pf e.text,
              start := parseGoFloat (selectAttrValue e "start" "0.0"),
              duration := parseGoFloat (selectAttrValue e "dur" "0.0") })) ∧
    (∀ e : XMLElement, e.attributes.lookup "start" = none →
      parseGoFloat (selectAttrValue e "start" "0.0") = 0) ∧
    parseGoFloat "abc" = 0 ∧
    transcriptParse false [⟨"text", [("start", "abc")], "hello"⟩] =
      [⟨"hello", 0, 0⟩] ∧
    removeAllHTMLTags "<b>hi</b> <i>there</i>" = "hi there" ∧
    removeNonFormattingHTMLTags "<b>hi</b> <i>there</i>" =
      "<b>hi</b> <i>there</i>" ∧
    removeNonFormattingHTMLTags "<font color=\"red\">hi</font>" = "hi" ∧
    processSnippetText false "&lt;b&gt;hi" = "hi" := by
  refine ⟨?_, ?_, by decide, ?_, by decide, by decide, by decide, by decide⟩
  · intro pf elems
    induction elems with
    | nil => rfl
    | cons e rest ih =>
        by_cases h1 : e.tag = "text"
        · by_cases h2 : e.text = ""
          · simp [transcriptParse, h1, h2, ih, List.filter_cons]
          · simp [transcriptParse, h1, h2, ih, List.filter_cons]
        · simp [transcriptParse, h1, ih, List.filter_cons]
  · intro e h
    simp only [selectAttrValue, h, Option.getD_none]
    exact parseGoFloat_default
  · have hd : selectAttrValue ⟨"text", [("start", "abc")], "hello"⟩
        "dur" "0.0" = "0.0" := rfl
    simp only [transcriptParse]
    rw [if_neg (by decide), if_neg (by decide), hd, parseGoFloat_default]
    have hs : parseGoFloat (selectAttrValue
        ⟨"text", [("start", "abc")], "hello"⟩ "start" "0.0") = 0 := by decide
    rw [hs]
    have ht : processSnippetText false "hello" = "hello" := by decide
    rw [ht]

/-- C8 witness: the default applied to a concrete element without a
`start` attribute. -/
theorem transcriptParser_spec_witness :
    parseGoFloat
      (selectAttrValue ⟨"text", [("dur", "1.5")], "hi"⟩ "start" "0.0") = 0 :=
  transcriptParser_spec.2.1 ⟨"text", [("dur", "1.5")], "hi"⟩ rfl

end YTGo
